import Mathlib

/-!
Verification of the sciencewizard-web backend against its specification.

The Python source is shallowly embedded: the SQLite tables become explicit
Lean state (association lists and record lists), the async functions become
pure state-transition functions (calls are serialized, matching the spec's
serialized-execution reading), machine integers become Int/Nat, SQL REAL
progress values become exact rationals, and Python exceptions become
Except/abort results.  Each definition is translated from the corresponding
function in src/, keeping the source names.
-/

namespace VelvetResearch

/-! ## Token ledger state (database.py: tables user_tokens, token_transactions) -/

/-- One row of the user_tokens table: integer balance and cumulative
total_purchased counter (database.py schema). -/
structure TokenAccount where
  balance : Int
  total_purchased : Int
deriving Repr, DecidableEq

/-- One row of the token_transactions table (id and timestamp omitted: the
list order models ORDER BY created_at DESC, most recent first). -/
structure TokenTransaction where
  user_id : String
  ttype : String
  amount : Int
  description : String
deriving Repr, DecidableEq

/-- One row of the referrals table (database.py schema): referee_user_id is
nullable, tokens_awarded defaults to 0. -/
structure Referral where
  referrer_user_id : String
  referral_code : String
  referee_email : Option String
  referee_user_id : Option String
  tokens_awarded : Int
deriving Repr, DecidableEq

/-- The durable-store state relevant to the token ledger and referral engine.
user_tokens is an association list keyed by user id (user_id is the table's
primary key); token_transactions holds the most recent transaction first. -/
structure DBState where
  user_tokens : List (String × TokenAccount)
  token_transactions : List TokenTransaction
  referrals : List Referral
deriving Repr, DecidableEq

/-- The empty database produced by init_db. -/
def initDB : DBState := ⟨[], [], []⟩

/-- SQL SELECT * FROM user_tokens WHERE user_id = uid (first matching row). -/
def findAccount : List (String × TokenAccount) → String → Option TokenAccount
  | [], _ => none
  | (k, a) :: rest, uid => if k = uid then some a else findAccount rest uid

/-- SQL UPDATE user_tokens SET ... WHERE user_id = uid: applies f to every
row whose key matches; affects zero rows when no row matches (no error). -/
def updateAccount (l : List (String × TokenAccount)) (uid : String)
    (f : TokenAccount → TokenAccount) : List (String × TokenAccount) :=
  l.map (fun p => (p.1, if p.1 = uid then f p.2 else p.2))

/-- Conceptual balance of a user: the stored row's balance, or 0 when no row
exists yet (matching what get_user_tokens reports for an absent row). -/
def balanceOf (s : DBState) (uid : String) : Int :=
  ((findAccount s.user_tokens uid).map TokenAccount.balance).getD 0

/-- Conceptual total_purchased of a user, 0 when no row exists. -/
def totalPurchasedOf (s : DBState) (uid : String) : Int :=
  ((findAccount s.user_tokens uid).map TokenAccount.total_purchased).getD 0

/-- database.get_user_tokens: SELECT the row; if absent, INSERT a fresh row
with balance 0 and total_purchased 0 and return it. -/
def get_user_tokens (s : DBState) (user_id : String) : TokenAccount × DBState :=
  match findAccount s.user_tokens user_id with
  | some acct => (acct, s)
  | none =>
      (⟨0, 0⟩, { s with user_tokens := (user_id, ⟨0, 0⟩) :: s.user_tokens })

/-- database.add_tokens: INSERT a transaction row, UPDATE balance by amount
WHERE user_id (a no-op when the row is absent), and when the type is
"purchase" also UPDATE total_purchased by amount. -/
def add_tokens (s : DBState) (user_id : String) (amount : Int)
    (transaction_type : String) (description : String) : DBState :=
  let txs := TokenTransaction.mk user_id transaction_type amount description
      :: s.token_transactions
  let tok1 := updateAccount s.user_tokens user_id
      (fun a => { a with balance := a.balance + amount })
  let tok2 := if transaction_type = "purchase" then
      updateAccount tok1 user_id
        (fun a => { a with total_purchased := a.total_purchased + amount })
    else tok1
  { s with user_tokens := tok2, token_transactions := txs }

/-- database.consume_tokens: read the balance via get_user_tokens; if it is
strictly below amount return False with no further write, else deduct via
add_tokens with a negated amount and type "consumption" and return True. -/
def consume_tokens (s : DBState) (user_id : String) (amount : Int)
    (description : String) : Bool × DBState :=
  let r := get_user_tokens s user_id
  if r.1.balance < amount then (false, r.2)
  else (true, add_tokens r.2 user_id (-amount) "consumption" description)

/-- database.get_token_transactions: rows of the user, most recent first,
LIMIT `limit`. -/
def get_token_transactions (s : DBState) (user_id : String) (limit : Nat) :
    List TokenTransaction :=
  (s.token_transactions.filter (fun t => t.user_id = user_id)).take limit

/-! ## Association-list lemmas -/

theorem findAccount_updateAccount_self (l : List (String × TokenAccount))
    (uid : String) (f : TokenAccount → TokenAccount) :
    findAccount (updateAccount l uid f) uid = (findAccount l uid).map f := by
  induction l with
  | nil => rfl
  | cons p rest ih =>
      rcases p with ⟨k, a⟩
      by_cases h : k = uid
      · subst h
        simp [updateAccount, findAccount]
      · simpa [updateAccount, findAccount, h] using ih

theorem findAccount_updateAccount_other (l : List (String × TokenAccount))
    (uid v : String) (f : TokenAccount → TokenAccount) (h : v ≠ uid) :
    findAccount (updateAccount l uid f) v = findAccount l v := by
  induction l with
  | nil => rfl
  | cons p rest ih =>
      rcases p with ⟨k, a⟩
      by_cases hk : k = uid
      · subst hk
        have hkv : k ≠ v := Ne.symm h
        simpa [updateAccount, findAccount, hkv] using ih
      · by_cases hv : k = v
        · subst hv
          simp [updateAccount, findAccount, hk]
        · simpa [updateAccount, findAccount, hk, hv] using ih

/-- Balance after add_tokens for the acting user: incremented when a row
exists, otherwise there is still no row and the conceptual balance stays 0. -/
theorem balanceOf_add_tokens_self (s : DBState) (uid : String) (amount : Int)
    (ttype description : String) :
    balanceOf (add_tokens s uid amount ttype description) uid
      = match findAccount s.user_tokens uid with
        | some a => a.balance + amount
        | none => 0 := by
  unfold add_tokens balanceOf
  by_cases h : ttype = "purchase" <;>
    cases hfa : findAccount s.user_tokens uid <;>
    simp [h, findAccount_updateAccount_self, hfa]

/-- add_tokens leaves every other user's balance unchanged. -/
theorem balanceOf_add_tokens_other (s : DBState) (uid v : String) (amount : Int)
    (ttype description : String) (h : v ≠ uid) :
    balanceOf (add_tokens s uid amount ttype description) v = balanceOf s v := by
  unfold add_tokens balanceOf
  by_cases hp : ttype = "purchase" <;>
    simp [hp, findAccount_updateAccount_other _ _ _ _ h]

/-! ## C1 -/

/-- C1: for every user and every positive amount, a serialized consume call
with current balance strictly below the amount returns failure, leaves the
balance unchanged and appends no transaction; otherwise it appends exactly
one "consumption" transaction of -amount, decrements the balance by exactly
amount, and returns success — so consumption never drives a non-negative
balance negative. -/
theorem consume_tokens_spec (s : DBState) (uid : String) (amount : Int)
    (description : String) (hpos : 0 < amount) :
    (balanceOf s uid < amount →
      (consume_tokens s uid amount description).1 = false ∧
      balanceOf (consume_tokens s uid amount description).2 uid = balanceOf s uid ∧
      (consume_tokens s uid amount description).2.token_transactions
        = s.token_transactions) ∧
    (amount ≤ balanceOf s uid →
      (consume_tokens s uid amount description).1 = true ∧
      balanceOf (consume_tokens s uid amount description).2 uid
        = balanceOf s uid - amount ∧
      (consume_tokens s uid amount description).2.token_transactions
        = ⟨uid, "consumption", -amount, description⟩ :: s.token_transactions) ∧
    (0 ≤ balanceOf s uid →
      0 ≤ balanceOf (consume_tokens s uid amount description).2 uid) := by
  have hb : balanceOf s uid
      = ((findAccount s.user_tokens uid).map TokenAccount.balance).getD 0 := rfl
  cases hlook : findAccount s.user_tokens uid with
  | none =>
      have hb0 : balanceOf s uid = 0 := by rw [hb, hlook]; rfl
      have hres : consume_tokens s uid amount description
          = (false, { s with user_tokens := (uid, ⟨0, 0⟩) :: s.user_tokens }) := by
        simp [consume_tokens, get_user_tokens, hlook, hpos]
      refine ⟨fun _ => ⟨by rw [hres], ?_, by rw [hres]⟩,
        fun hle => absurd (lt_of_lt_of_le hpos (hb0 ▸ hle)) (lt_irrefl _),
        fun _ => ?_⟩
      · rw [hres, hb0]
        simp [balanceOf, findAccount]
      · rw [hres]
        simp [balanceOf, findAccount]
  | some acct =>
      have hbv : balanceOf s uid = acct.balance := by rw [hb, hlook]; rfl
      by_cases hlt : acct.balance < amount
      · have hres : consume_tokens s uid amount description = (false, s) := by
          simp [consume_tokens, get_user_tokens, hlook, hlt]
        refine ⟨fun _ => ⟨by rw [hres], by rw [hres], by rw [hres]⟩,
          fun hle => absurd (lt_of_le_of_lt (hbv ▸ hle) hlt) (lt_irrefl _),
          fun hnn => by rw [hres]; exact hnn⟩
      · have hres : consume_tokens s uid amount description
            = (true, add_tokens s uid (-amount) "consumption" description) := by
          simp [consume_tokens, get_user_tokens, hlook, hlt]
        have hbal : balanceOf (add_tokens s uid (-amount) "consumption" description) uid
            = acct.balance - amount := by
          rw [balanceOf_add_tokens_self, hlook]
          ring
        push_neg at hlt
        refine ⟨fun hcon => absurd (hbv ▸ hcon) (not_lt.mpr hlt),
          fun _ => ⟨by rw [hres], by rw [hres, hbal, hbv], by rw [hres]; rfl⟩,
          fun _ => ?_⟩
        rw [hres, hbal]
        omega

/-- Witness for C1 at a concrete state: user "u" holding balance 5 consumes 3
tokens; the call succeeds and the balance drops to 2. -/
theorem consume_tokens_spec_witness :
    (consume_tokens ⟨[("u", ⟨5, 0⟩)], [], []⟩ "u" 3 "d").1 = true ∧
    balanceOf (consume_tokens ⟨[("u", ⟨5, 0⟩)], [], []⟩ "u" 3 "d").2 "u" = 2 := by
  have h := consume_tokens_spec ⟨[("u", ⟨5, 0⟩)], [], []⟩ "u" 3 "d" (by decide)
  have h2 := h.2.1 (by decide)
  exact ⟨h2.1, by rw [h2.2.1]; decide⟩

/-! ## TokenManager (services/token_manager.py) -/

/-- Python dict lookup (d.get(key) / key in d) over a small static table. -/
def dictGet {β : Type} : List (String × β) → String → Option β
  | [], _ => none
  | (k, v) :: rest, key => if k = key then some v else dictGet rest key

/-- TokenManager.TOKEN_REQUIREMENTS: fixed pricing tiers. -/
def TOKEN_REQUIREMENTS : List (String × Int) :=
  [("basic", 100), ("standard", 200), ("premium", 300), ("complex", 500)]

/-- One entry of TokenManager.TOKEN_PACKAGES. -/
structure TokenPackage where
  tokens : Int
  price : Int
  discount : Rat
deriving Repr, DecidableEq

/-- TokenManager.TOKEN_PACKAGES: purchase packages, in table order. -/
def TOKEN_PACKAGES : List (String × TokenPackage) :=
  [("starter", ⟨150, 139, 7/100⟩),
   ("professional", ⟨500, 449, 1/10⟩),
   ("enterprise", ⟨1000, 849, 3/20⟩)]

/-- The recommended-package record built by estimate_project_cost. -/
structure PackageRecommendation where
  name : String
  tokens : Int
  price : Int
  remaining_after_project : Int
deriving Repr, DecidableEq

/-- The part of estimate_project_cost's result the spec speaks about
(the estimated_value string and the echoed package table are omitted). -/
structure CostEstimate where
  tokens_needed : Int
  recommended_package : Option PackageRecommendation
deriving Repr, DecidableEq

/-- TokenManager.estimate_project_cost: TOKEN_REQUIREMENTS.get(complexity, 200),
then the first package (in table order) whose token count covers the need. -/
def estimate_project_cost (complexity : String) : CostEstimate :=
  let tokens_needed := (dictGet TOKEN_REQUIREMENTS complexity).getD 200
  let best := (TOKEN_PACKAGES.find? (fun p => decide (tokens_needed ≤ p.2.tokens))).map
      (fun p => PackageRecommendation.mk p.1 p.2.tokens p.2.price (p.2.tokens - tokens_needed))
  ⟨tokens_needed, best⟩

/-- TokenManager.consume_tokens_for_project: TOKEN_REQUIREMENTS.get(project_type, 200)
then database.consume_tokens with the formatted description. -/
def consume_tokens_for_project (s : DBState) (user_id project_type project_id : String) :
    Bool × DBState :=
  let tokens_needed := (dictGet TOKEN_REQUIREMENTS project_type).getD 200
  consume_tokens s user_id tokens_needed
    ("Token consumption for " ++ project_type ++ " project " ++ project_id)

/-- The receipt dict returned by TokenManager.purchase_tokens (success field
is the Except.ok constructor itself). -/
structure PurchaseReceipt where
  tokens_added : Int
  new_balance : Int
  package : String
  price_paid : Int
deriving Repr, DecidableEq

/-- The transaction description built by TokenManager.purchase_tokens,
with the optional payment-id suffix. -/
def purchase_description (package_name : String) (tokens : Int)
    (payment_id : Option String) : String :=
  "Purchased " ++ package_name ++ " package (" ++ toString tokens ++ " tokens)"
    ++ (match payment_id with
        | some pid => " - Payment ID: " ++ pid
        | none => "")

/-- TokenManager.purchase_tokens: raise ValueError on an unknown package name
(before any database write), else add_tokens with type "purchase" and report
the balance re-read through get_user_tokens. -/
def purchase_tokens (s : DBState) (user_id package_name : String)
    (payment_id : Option String) : Except String PurchaseReceipt × DBState :=
  match dictGet TOKEN_PACKAGES package_name with
  | none => (Except.error ("Invalid package: " ++ package_name), s)
  | some pkg =>
      let s1 := add_tokens s user_id pkg.tokens "purchase"
          (purchase_description package_name pkg.tokens payment_id)
      let r := get_user_tokens s1 user_id
      (Except.ok ⟨pkg.tokens, r.1.balance, package_name, pkg.price⟩, r.2)

/-- The dict returned by TokenManager.get_user_balance. -/
structure BalanceInfo where
  balance : Int
  total_purchased : Int
  transactions : List TokenTransaction
deriving Repr, DecidableEq

/-- TokenManager.get_user_balance: get_user_tokens (lazily creating the row)
plus the 10 most recent transactions. -/
def get_user_balance (s : DBState) (user_id : String) : BalanceInfo × DBState :=
  let r := get_user_tokens s user_id
  (⟨r.1.balance, r.1.total_purchased, get_token_transactions r.2 user_id 10⟩, r.2)

/-! ## Referral engine (database.py referral operations) -/

/-- SQL SELECT * FROM referrals WHERE referral_code = code (first match). -/
def findReferral : List Referral → String → Option Referral
  | [], _ => none
  | r :: rest, code =>
      if r.referral_code = code then some r else findReferral rest code

/-- database.get_referral_by_code. -/
def get_referral_by_code (s : DBState) (referral_code : String) : Option Referral :=
  findReferral s.referrals referral_code

/-- SQL UPDATE referrals SET tokens_awarded = 25 WHERE referral_code = code. -/
def setAwarded : List Referral → String → List Referral
  | [], _ => []
  | r :: rest, code =>
      { r with tokens_awarded :=
          if r.referral_code = code then 25 else r.tokens_awarded }
        :: setAwarded rest code

/-- database.award_referral_tokens: look the referral up; fail when absent,
when the referee user id is unset, or when tokens_awarded > 0; otherwise
credit the fixed 25-token "referral_bonus" to the referrer through
add_tokens and mark tokens_awarded = 25. -/
def award_referral_tokens (s : DBState) (referral_code : String) : Bool × DBState :=
  match get_referral_by_code s referral_code with
  | none => (false, s)
  | some referral =>
      if referral.referee_user_id = none ∨ referral.tokens_awarded > 0 then
        (false, s)
      else
        let s1 := add_tokens s referral.referrer_user_id 25 "referral_bonus"
            ("Referral bonus for " ++ referral.referee_user_id.getD "")
        (true, { s1 with referrals := setAwarded s1.referrals referral_code })

/-- ReferralManager.process_referral_reward: delegates to
award_referral_tokens; the success field of the returned dict is exactly the
boolean outcome (no exception arises in the embedded ledger). -/
def process_referral_reward (s : DBState) (referral_code : String) : Bool × DBState :=
  award_referral_tokens s referral_code

/-- N serialized calls to award_referral_tokens on the same code. -/
def awardIter : Nat → DBState → String → DBState
  | 0, s, _ => s
  | n + 1, s, code => awardIter n (award_referral_tokens s code).2 code

/-- Number of "referral_bonus" transactions of amount 25 credited to uid. -/
def countBonusTx (s : DBState) (uid : String) : Nat :=
  (s.token_transactions.filter
    (fun t => decide (t.ttype = "referral_bonus" ∧ t.user_id = uid ∧ t.amount = 25))).length

theorem findReferral_setAwarded (l : List Referral) (code : String) :
    findReferral (setAwarded l code) code
      = (findReferral l code).map (fun x => { x with tokens_awarded := 25 }) := by
  induction l with
  | nil => rfl
  | cons r rest ih =>
      by_cases h : r.referral_code = code
      · simp [setAwarded, findReferral, h]
      · simpa [setAwarded, findReferral, h] using ih

theorem referrals_add_tokens (s : DBState) (uid : String) (amount : Int)
    (ttype description : String) :
    (add_tokens s uid amount ttype description).referrals = s.referrals := rfl

theorem txs_add_tokens (s : DBState) (uid : String) (amount : Int)
    (ttype description : String) :
    (add_tokens s uid amount ttype description).token_transactions
      = TokenTransaction.mk uid ttype amount description :: s.token_transactions := rfl

/-- An eligible award call succeeds and produces exactly the add_tokens write
plus the tokens_awarded = 25 mark. -/
theorem award_success_step (s : DBState) (code : String) (r : Referral) (u : String)
    (hfind : get_referral_by_code s code = some r)
    (hru : r.referee_user_id = some u) (hz : r.tokens_awarded = 0) :
    award_referral_tokens s code
      = (true,
         { add_tokens s r.referrer_user_id 25 "referral_bonus"
             ("Referral bonus for " ++ r.referee_user_id.getD "") with
           referrals := setAwarded s.referrals code }) := by
  unfold award_referral_tokens
  rw [hfind]
  have hcond : ¬(r.referee_user_id = none ∨ r.tokens_awarded > 0) := by
    rw [hru, hz]
    simp
  dsimp only
  rw [if_neg hcond]
  rfl

/-- An award call on a referral already marked with tokens_awarded = 25 is a
no-op returning failure. -/
theorem award_second_noop (s : DBState) (code : String) (r2 : Referral)
    (hfind : get_referral_by_code s code = some r2) (h25 : r2.tokens_awarded = 25) :
    award_referral_tokens s code = (false, s) := by
  unfold award_referral_tokens
  rw [hfind]
  dsimp only
  rw [if_pos (Or.inr (by rw [h25]; norm_num))]

/-- Once award is a no-op on a state, iterating it any number of times keeps
the state fixed. -/
theorem awardIter_of_fixed (s : DBState) (code : String)
    (hfix : award_referral_tokens s code = (false, s)) :
    ∀ n, awardIter n s code = s := by
  intro n
  induction n with
  | zero => rfl
  | succ m ih =>
      show awardIter m (award_referral_tokens s code).2 code = s
      rw [hfix]
      exact ih

/-! ## C3 -/

/-- C3: on a referral record that is eligible (referee user id set,
tokens_awarded still 0), N ≥ 1 serialized award calls return success on the
first call, leave the state exactly where the first call left it, append
exactly one "referral_bonus" transaction of 25 tokens credited to the
referrer, and set tokens_awarded to 25 exactly once; whenever the referee
user id is unset or tokens_awarded is already non-zero (stored values are
never negative, hence the 0 ≤ tokens_awarded hypothesis), award returns
failure and leaves the whole state — referral record and all balances —
unchanged. -/
theorem award_referral_tokens_spec (s : DBState) (code : String) (r : Referral)
    (hfind : get_referral_by_code s code = some r) :
    ((r.referee_user_id = none ∨ r.tokens_awarded ≠ 0) → 0 ≤ r.tokens_awarded →
       award_referral_tokens s code = (false, s)) ∧
    (∀ u, r.referee_user_id = some u → r.tokens_awarded = 0 → ∀ n, 1 ≤ n →
       (award_referral_tokens s code).1 = true ∧
       awardIter n s code = (award_referral_tokens s code).2 ∧
       countBonusTx (awardIter n s code) r.referrer_user_id
         = countBonusTx s r.referrer_user_id + 1 ∧
       (get_referral_by_code (awardIter n s code) code).map Referral.tokens_awarded
         = some 25) := by
  constructor
  · intro hfail hnn
    unfold award_referral_tokens
    rw [hfind]
    dsimp only
    rw [if_pos ?hc]
    case hc =>
      rcases hfail with h | h
      · exact Or.inl h
      · exact Or.inr (lt_of_le_of_ne hnn (Ne.symm h))
  · intro u hru hz n hn
    have hstep := award_success_step s code r u hfind hru hz
    set s1 := { add_tokens s r.referrer_user_id 25 "referral_bonus"
        ("Referral bonus for " ++ r.referee_user_id.getD "") with
      referrals := setAwarded s.referrals code } with hs1
    have hfind1 : get_referral_by_code s1 code
        = some { r with tokens_awarded := 25 } := by
      show findReferral s1.referrals code = _
      rw [hs1]
      show findReferral (setAwarded s.referrals code) code = _
      rw [findReferral_setAwarded]
      have : findReferral s.referrals code = some r := hfind
      rw [this]
      rfl
    have hnoop : award_referral_tokens s1 code = (false, s1) :=
      award_second_noop s1 code _ hfind1 rfl
    have hiter : awardIter n s code = s1 := by
      rcases Nat.exists_eq_add_of_le hn with ⟨m, hm⟩
      subst hm
      show awardIter (1 + m) s code = s1
      rw [Nat.add_comm]
      show awardIter m (award_referral_tokens s code).2 code = s1
      rw [hstep]
      exact awardIter_of_fixed s1 code hnoop m
    refine ⟨by rw [hstep], by rw [hiter, hstep], ?_, ?_⟩
    · rw [hiter, hs1]
      show countBonusTx { add_tokens s r.referrer_user_id 25 "referral_bonus"
          ("Referral bonus for " ++ r.referee_user_id.getD "") with
        referrals := setAwarded s.referrals code } r.referrer_user_id = _
      unfold countBonusTx
      rw [show ({ add_tokens s r.referrer_user_id 25 "referral_bonus"
          ("Referral bonus for " ++ r.referee_user_id.getD "") with
        referrals := setAwarded s.referrals code } : DBState).token_transactions
          = TokenTransaction.mk r.referrer_user_id "referral_bonus" 25
              ("Referral bonus for " ++ r.referee_user_id.getD "")
            :: s.token_transactions from rfl]
      simp
    · rw [hiter, hfind1]
      rfl

/-- Witness for C3: one eligible referral "VR-ABC123"; two serialized award
calls credit the referrer exactly one 25-token bonus and set
tokens_awarded to 25, and the ineligible (already-awarded) second record
keeps everything unchanged. -/
theorem award_referral_tokens_spec_witness :
    countBonusTx
      (awardIter 2 ⟨[("ref", ⟨0, 0⟩)], [], [⟨"ref", "VR-ABC123", none, some "referee", 0⟩]⟩
        "VR-ABC123") "ref" = 1 ∧
    (get_referral_by_code
      (awardIter 2 ⟨[("ref", ⟨0, 0⟩)], [], [⟨"ref", "VR-ABC123", none, some "referee", 0⟩]⟩
        "VR-ABC123") "VR-ABC123").map Referral.tokens_awarded = some 25 := by
  have h := award_referral_tokens_spec
    ⟨[("ref", ⟨0, 0⟩)], [], [⟨"ref", "VR-ABC123", none, some "referee", 0⟩]⟩
    "VR-ABC123" ⟨"ref", "VR-ABC123", none, some "referee", 0⟩ rfl
  have h2 := h.2 "referee" rfl rfl 2 (by decide)
  refine ⟨?_, h2.2.2.2⟩
  rw [h2.2.2.1]
  decide

/-! ## C7 -/

/-- Row after a purchase-typed add_tokens when the account row exists: both
balance and total_purchased are incremented. -/
theorem findAccount_add_tokens_purchase (s : DBState) (uid : String)
    (amount : Int) (description : String) (a : TokenAccount)
    (hrow : findAccount s.user_tokens uid = some a) :
    findAccount (add_tokens s uid amount "purchase" description).user_tokens uid
      = some ⟨a.balance + amount, a.total_purchased + amount⟩ := by
  unfold add_tokens
  simp [findAccount_updateAccount_self, hrow]

/-- Evaluation of purchase_tokens for the "starter" package on a user whose
account row exists. -/
theorem purchase_tokens_starter_eq (s : DBState) (uid : String) (b tp : Int)
    (payid : Option String)
    (hrow : findAccount s.user_tokens uid = some ⟨b, tp⟩) :
    purchase_tokens s uid "starter" payid
      = (Except.ok ⟨150, b + 150, "starter", 139⟩,
         add_tokens s uid 150 "purchase"
           (purchase_description "starter" 150 payid)) := by
  unfold purchase_tokens
  rw [show dictGet TOKEN_PACKAGES "starter" = some ⟨150, 139, 7/100⟩ from rfl]
  dsimp only
  unfold get_user_tokens
  rw [findAccount_add_tokens_purchase s uid 150 _ ⟨b, tp⟩ hrow]

/-- C7 (amended): purchase rejects an unknown package name with a ValueError
and no state mutation; and for every user whose token-account row already
exists with total_purchased 0, purchase of "starter" appends one "purchase"
transaction of 150 tokens, increases the balance by exactly 150 and sets
total_purchased to 150, with a subsequent get_balance reflecting the new
balance and listing the purchase transaction in its recent history.  (For a
user with no token-account row yet the balance update is a silent SQL no-op:
see the counterexample theorem.) -/
theorem purchase_tokens_spec :
    (∀ (s : DBState) (uid pkg : String) (payid : Option String),
        dictGet TOKEN_PACKAGES pkg = none →
        purchase_tokens s uid pkg payid
          = (Except.error ("Invalid package: " ++ pkg), s)) ∧
    (∀ (s : DBState) (uid : String) (b : Int) (payid : Option String),
        findAccount s.user_tokens uid = some ⟨b, 0⟩ →
        (purchase_tokens s uid "starter" payid).1
            = Except.ok ⟨150, b + 150, "starter", 139⟩ ∧
        balanceOf (purchase_tokens s uid "starter" payid).2 uid = b + 150 ∧
        totalPurchasedOf (purchase_tokens s uid "starter" payid).2 uid = 150 ∧
        (∃ tx : TokenTransaction,
            (purchase_tokens s uid "starter" payid).2.token_transactions
              = tx :: s.token_transactions ∧
            tx.user_id = uid ∧ tx.ttype = "purchase" ∧ tx.amount = 150 ∧
            (get_user_balance (purchase_tokens s uid "starter" payid).2 uid).1.balance
              = b + 150 ∧
            tx ∈ (get_user_balance (purchase_tokens s uid "starter" payid).2 uid).1.transactions)) := by
  constructor
  · intro s uid pkg payid hno
    unfold purchase_tokens
    rw [hno]
  · intro s uid b payid hrow
    have heq := purchase_tokens_starter_eq s uid b 0 payid hrow
    refine ⟨by rw [heq], ?_, ?_, ?_⟩
    · rw [heq]
      dsimp only
      unfold balanceOf
      rw [findAccount_add_tokens_purchase s uid 150 _ ⟨b, 0⟩ hrow]
      rfl
    · rw [heq]
      dsimp only
      unfold totalPurchasedOf
      rw [findAccount_add_tokens_purchase s uid 150 _ ⟨b, 0⟩ hrow]
      simp
    · refine ⟨⟨uid, "purchase", 150, purchase_description "starter" 150 payid⟩,
        ?_, rfl, rfl, rfl, ?_, ?_⟩
      · rw [heq]
        rfl
      · rw [heq]
        dsimp only
        unfold get_user_balance get_user_tokens
        rw [findAccount_add_tokens_purchase s uid 150 _ ⟨b, 0⟩ hrow]
      · rw [heq]
        dsimp only
        unfold get_user_balance get_user_tokens
        rw [findAccount_add_tokens_purchase s uid 150 _ ⟨b, 0⟩ hrow]
        dsimp only
        unfold get_token_transactions
        rw [txs_add_tokens]
        have hf : List.filter
            (fun tt => decide (tt.user_id = uid))
            (TokenTransaction.mk uid "purchase" 150
                (purchase_description "starter" 150 payid)
              :: s.token_transactions)
            = TokenTransaction.mk uid "purchase" 150
                (purchase_description "starter" 150 payid)
              :: List.filter (fun tt => decide (tt.user_id = uid))
                  s.token_transactions := by
          simp
        rw [hf]
        exact List.mem_cons_self _ _

/-- Witness for C7 at a concrete state: user "u" already has an account row
with balance 0 and total_purchased 0; purchasing "starter" yields balance
150 and total_purchased 150. -/
theorem purchase_tokens_spec_witness :
    balanceOf (purchase_tokens ⟨[("u", ⟨0, 0⟩)], [], []⟩ "u" "starter" none).2 "u" = 150 ∧
    totalPurchasedOf (purchase_tokens ⟨[("u", ⟨0, 0⟩)], [], []⟩ "u" "starter" none).2 "u" = 150 := by
  have h := purchase_tokens_spec.2 ⟨[("u", ⟨0, 0⟩)], [], []⟩ "u" 0 none rfl
  exact ⟨by rw [h.2.1]; decide, h.2.2.1⟩

/-- Counterexample for C7 as stated: a user with no user_tokens row yet (so
conceptually balance 0 and total_purchased 0, the lazily-materialized
account of the spec) purchases "starter": the purchase transaction is
recorded, but the SQL balance UPDATE matches no row, the row is only then
lazily created with balance 0 by the re-read, and the receipt reports
new_balance 0 — the balance does not increase by 150 and total_purchased
stays 0. -/
theorem purchase_tokens_fresh_user_counterexample :
    (purchase_tokens initDB "u" "starter" none).1
        = Except.ok ⟨150, 0, "starter", 139⟩ ∧
    balanceOf (purchase_tokens initDB "u" "starter" none).2 "u" = 0 ∧
    totalPurchasedOf (purchase_tokens initDB "u" "starter" none).2 "u" = 0 ∧
    (purchase_tokens initDB "u" "starter" none).2.token_transactions
        = [⟨"u", "purchase", 150, "Purchased starter package (150 tokens)"⟩] := by
  refine ⟨rfl, rfl, rfl, ?_⟩
  decide

/-! ## C10 -/

/-- C10: any project/complexity type outside basic, standard, premium,
complex silently falls back to the 200-token default — the "standard" tier —
in both estimate_project_cost and consume_tokens_for_project, instead of
being rejected. -/
theorem unknown_project_type_spec (t : String)
    (h1 : t ≠ "basic") (h2 : t ≠ "standard") (h3 : t ≠ "premium")
    (h4 : t ≠ "complex") :
    (estimate_project_cost t).tokens_needed = 200 ∧
    estimate_project_cost t = estimate_project_cost "standard" ∧
    dictGet TOKEN_REQUIREMENTS "standard" = some 200 ∧
    ∀ (s : DBState) (uid pid : String),
      consume_tokens_for_project s uid t pid
        = consume_tokens s uid 200
            ("Token consumption for " ++ t ++ " project " ++ pid) := by
  have hnone : dictGet TOKEN_REQUIREMENTS t = none := by
    simp [dictGet, TOKEN_REQUIREMENTS, Ne.symm h1, Ne.symm h2, Ne.symm h3, Ne.symm h4]
  refine ⟨?_, ?_, rfl, ?_⟩
  · unfold estimate_project_cost
    rw [hnone]
    rfl
  · unfold estimate_project_cost
    rw [hnone]
    rfl
  · intro s uid pid
    unfold consume_tokens_for_project
    rw [hnone]
    rfl

/-- Witness for C10 at the concrete unknown type "fancy": the estimate is
200 tokens and consuming for a "fancy" project on an empty account fails
exactly like a standard 200-token consumption would. -/
theorem unknown_project_type_spec_witness :
    (estimate_project_cost "fancy").tokens_needed = 200 ∧
    (consume_tokens_for_project initDB "u" "fancy" "p1").1 = false := by
  have h := unknown_project_type_spec "fancy" (by decide) (by decide) (by decide)
    (by decide)
  refine ⟨h.1, ?_⟩
  rw [h.2.2.2 initDB "u" "p1"]
  decide

/-! ## Ledger reachability (C9) -/

/-- database.create_referral: INSERT a fresh referral row (referee fields
null, tokens_awarded 0). -/
def create_referral (s : DBState) (referrer_user_id referral_code : String) :
    DBState :=
  { s with referrals :=
      s.referrals ++ [⟨referrer_user_id, referral_code, none, none, 0⟩] }

/-- database.record_referral_signup: UPDATE referrals SET referee_user_id
WHERE referral_code. -/
def record_referral_signup (s : DBState) (referral_code referee_user_id : String) :
    DBState :=
  { s with referrals := s.referrals.map (fun r =>
      { r with referee_user_id :=
          if r.referral_code = referral_code then some referee_user_id
          else r.referee_user_id }) }

/-- States of the token/referral tables reachable through the operations the
code base performs: lazy account creation, package purchase, consumption
(with any amount, as the source never validates it), referral bonus award,
referral creation and signup recording. -/
inductive LedgerReach : DBState → Prop
  | init : LedgerReach initDB
  | lazy_create (s : DBState) (uid : String) :
      LedgerReach s → LedgerReach (get_user_tokens s uid).2
  | purchase (s : DBState) (uid pkg : String) (payid : Option String) :
      LedgerReach s → LedgerReach (purchase_tokens s uid pkg payid).2
  | consume (s : DBState) (uid : String) (amount : Int) (d : String) :
      LedgerReach s → LedgerReach (consume_tokens s uid amount d).2
  | award (s : DBState) (code : String) :
      LedgerReach s → LedgerReach (award_referral_tokens s code).2
  | referral_created (s : DBState) (uid code : String) :
      LedgerReach s → LedgerReach (create_referral s uid code)
  | signup_recorded (s : DBState) (code uid : String) :
      LedgerReach s → LedgerReach (record_referral_signup s code uid)

/-- Lazy account creation does not change any conceptual balance. -/
theorem balanceOf_get_user_tokens (s : DBState) (u uid : String) :
    balanceOf (get_user_tokens s u).2 uid = balanceOf s uid := by
  unfold get_user_tokens
  cases hfa : findAccount s.user_tokens u with
  | some acct => rfl
  | none =>
      by_cases hw : u = uid
      · subst hw
        simp [balanceOf, findAccount, hfa]
      · simp [balanceOf, findAccount, hw]

/-- Every package in the static table has a positive token count. -/
theorem TOKEN_PACKAGES_tokens_pos (pkg : String) (p : TokenPackage)
    (h : dictGet TOKEN_PACKAGES pkg = some p) : 0 < p.tokens := by
  simp only [TOKEN_PACKAGES, dictGet] at h
  split_ifs at h
  all_goals rw [← Option.some.inj h]
  all_goals decide

/-- consume_tokens either leaves a balance unchanged, or (only for the acting
user, and only when the guard passed) decrements it by the amount. -/
theorem balanceOf_consume_tokens (s : DBState) (u : String) (amount : Int)
    (d : String) (v : String) :
    balanceOf (consume_tokens s u amount d).2 v = balanceOf s v ∨
    (v = u ∧ amount ≤ balanceOf s u ∧
      balanceOf (consume_tokens s u amount d).2 v = balanceOf s u - amount) := by
  unfold consume_tokens
  cases hfa : findAccount s.user_tokens u with
  | some acct =>
      have hr : get_user_tokens s u = (acct, s) := by
        unfold get_user_tokens
        rw [hfa]
      rw [hr]
      dsimp only
      by_cases hlt : acct.balance < amount
      · rw [if_pos hlt]
        exact Or.inl rfl
      · rw [if_neg hlt]
        dsimp only
        by_cases hv : v = u
        · subst hv
          refine Or.inr ⟨rfl, ?_, ?_⟩
          · have hb : balanceOf s v = acct.balance := by
              simp [balanceOf, hfa]
            rw [hb]
            exact not_lt.mp hlt
          · rw [balanceOf_add_tokens_self, hfa]
            have hb : balanceOf s v = acct.balance := by
              simp [balanceOf, hfa]
            rw [hb]
            ring
        · exact Or.inl (balanceOf_add_tokens_other s u v (-amount) "consumption" d hv)
  | none =>
      have hr : get_user_tokens s u
          = (⟨0, 0⟩, { s with user_tokens := (u, ⟨0, 0⟩) :: s.user_tokens }) := by
        unfold get_user_tokens
        rw [hfa]
      have hsv : ∀ w, balanceOf { s with user_tokens := (u, ⟨0, 0⟩) :: s.user_tokens } w
          = balanceOf s w := by
        intro w
        by_cases hw : u = w
        · subst hw
          simp [balanceOf, findAccount, hfa]
        · simp [balanceOf, findAccount, hw]
      rw [hr]
      dsimp only
      by_cases hlt : (0 : Int) < amount
      · rw [if_pos hlt]
        exact Or.inl (hsv v)
      · rw [if_neg hlt]
        dsimp only
        by_cases hv : v = u
        · subst hv
          refine Or.inr ⟨rfl, ?_, ?_⟩
          · have hb : balanceOf s v = 0 := by
              simp [balanceOf, hfa]
            rw [hb]
            exact not_lt.mp hlt
          · rw [balanceOf_add_tokens_self]
            rw [show findAccount ({ s with user_tokens := (v, ⟨0, 0⟩) :: s.user_tokens} : DBState).user_tokens v
                = some ⟨0, 0⟩ from by simp [findAccount]]
            have hb : balanceOf s v = 0 := by
              simp [balanceOf, hfa]
            rw [hb]
            ring
        · rw [balanceOf_add_tokens_other _ _ _ _ _ _ hv, hsv v]
          exact Or.inl rfl

/-- Invariant: every ledger-reachable state has only non-negative balances —
purchases and referral bonuses add positive amounts and consumption is
guarded, so consumption can never drive a balance negative. -/
theorem ledgerReach_balance_nonneg (s : DBState) (h : LedgerReach s) :
    ∀ uid, 0 ≤ balanceOf s uid := by
  induction h with
  | init =>
      intro uid
      simp [balanceOf, initDB, findAccount]
  | lazy_create s u _ ih =>
      intro uid
      rw [balanceOf_get_user_tokens]
      exact ih uid
  | purchase s u pkg payid _ ih =>
      intro v
      unfold purchase_tokens
      cases hp : dictGet TOKEN_PACKAGES pkg with
      | none => exact ih v
      | some p =>
          dsimp only
          rw [balanceOf_get_user_tokens]
          by_cases hv : v = u
          · subst hv
            rw [balanceOf_add_tokens_self]
            cases hfa : findAccount s.user_tokens v with
            | none => simp
            | some a =>
                have hb : balanceOf s v = a.balance := by
                  simp [balanceOf, hfa]
                have h1 := ih v
                have h2 := TOKEN_PACKAGES_tokens_pos pkg p hp
                rw [hb] at h1
                show 0 ≤ a.balance + p.tokens
                omega
          · rw [balanceOf_add_tokens_other _ _ _ _ _ _ hv]
            exact ih v
  | consume s u amount d _ ih =>
      intro v
      rcases balanceOf_consume_tokens s u amount d v with hsame | ⟨hvu, hle, hdec⟩
      · rw [hsame]
        exact ih v
      · rw [hdec]
        omega
  | award s code _ ih =>
      intro v
      unfold award_referral_tokens
      cases hg : get_referral_by_code s code with
      | none => exact ih v
      | some r =>
          dsimp only
          by_cases hc : r.referee_user_id = none ∨ r.tokens_awarded > 0
          · rw [if_pos hc]
            exact ih v
          · rw [if_neg hc]
            show 0 ≤ balanceOf (add_tokens s r.referrer_user_id 25 "referral_bonus"
              ("Referral bonus for " ++ r.referee_user_id.getD "")) v
            by_cases hv : v = r.referrer_user_id
            · rw [hv]
              rw [balanceOf_add_tokens_self]
              cases hfa : findAccount s.user_tokens r.referrer_user_id with
              | none => simp
              | some a =>
                  have hb : balanceOf s r.referrer_user_id = a.balance := by
                    simp [balanceOf, hfa]
                  have h1 := ih r.referrer_user_id
                  rw [hb] at h1
                  show 0 ≤ a.balance + 25
                  omega
            · rw [balanceOf_add_tokens_other _ _ _ _ _ _ hv]
              exact ih v
  | referral_created s uid code _ ih =>
      intro v
      exact ih v
  | signup_recorded s code uid _ ih =>
      intro v
      exact ih v

/-! ## C9 -/

/-- consume_tokens evaluated when the amount does not exceed the current
balance: success, balance decremented, one transaction of -amount appended. -/
theorem consume_tokens_success (s : DBState) (uid : String) (amount : Int)
    (d : String) (h : amount ≤ balanceOf s uid) :
    (consume_tokens s uid amount d).1 = true ∧
    balanceOf (consume_tokens s uid amount d).2 uid = balanceOf s uid - amount ∧
    (consume_tokens s uid amount d).2.token_transactions
      = ⟨uid, "consumption", -amount, d⟩ :: s.token_transactions := by
  unfold consume_tokens
  cases hfa : findAccount s.user_tokens uid with
  | some acct =>
      have hr : get_user_tokens s uid = (acct, s) := by
        unfold get_user_tokens
        rw [hfa]
      have hb : balanceOf s uid = acct.balance := by
        simp [balanceOf, hfa]
      rw [hr]
      dsimp only
      rw [if_neg (not_lt.mpr (hb ▸ h))]
      refine ⟨rfl, ?_, rfl⟩
      rw [balanceOf_add_tokens_self, hfa, hb]
      ring
  | none =>
      have hr : get_user_tokens s uid
          = (⟨0, 0⟩, { s with user_tokens := (uid, ⟨0, 0⟩) :: s.user_tokens }) := by
        unfold get_user_tokens
        rw [hfa]
      have hb : balanceOf s uid = 0 := by
        simp [balanceOf, hfa]
      rw [hr]
      dsimp only
      rw [if_neg (not_lt.mpr (hb ▸ h))]
      refine ⟨rfl, ?_, rfl⟩
      rw [balanceOf_add_tokens_self]
      rw [show findAccount ({ s with user_tokens := (uid, ⟨0, 0⟩) :: s.user_tokens} : DBState).user_tokens uid
          = some ⟨0, 0⟩ from by simp [findAccount]]
      rw [hb]
      ring

/-- C9: for every non-positive amount, consume_tokens on any reachable state
(whose balances are all non-negative) never fails: it returns success
regardless of the balance, increases the balance by -amount, and records a
"consumption" transaction whose stored amount -amount is non-negative — the
function never validates that the consumed amount is positive. -/
theorem consume_tokens_nonpositive_spec (s : DBState) (hreach : LedgerReach s)
    (uid : String) (amount : Int) (d : String) (hle : amount ≤ 0) :
    (consume_tokens s uid amount d).1 = true ∧
    balanceOf (consume_tokens s uid amount d).2 uid = balanceOf s uid - amount ∧
    (consume_tokens s uid amount d).2.token_transactions
      = ⟨uid, "consumption", -amount, d⟩ :: s.token_transactions ∧
    0 ≤ -amount := by
  have hnn := ledgerReach_balance_nonneg s hreach uid
  have hs := consume_tokens_success s uid amount d (le_trans hle hnn)
  exact ⟨hs.1, hs.2.1, hs.2.2, by omega⟩

/-- Witness for C9: on the freshly initialized database (balance 0),
consuming -5 tokens succeeds and leaves user "u" with balance 5. -/
theorem consume_tokens_nonpositive_spec_witness :
    (consume_tokens initDB "u" (-5) "gift").1 = true ∧
    balanceOf (consume_tokens initDB "u" (-5) "gift").2 "u" = 5 := by
  have h := consume_tokens_nonpositive_spec initDB LedgerReach.init "u" (-5) "gift"
    (by decide)
  refine ⟨h.1, ?_⟩
  rw [h.2.1]
  decide

/-! ## Job rows (database.py: jobs table, create_job, update_job_status) -/

/-- One row of the jobs table as far as the lifecycle claims go (ids and
created_at omitted); progress is SQL REAL, modeled as an exact rational. -/
structure JobRow where
  status : String
  progress : Rat
  error : Option String
  report_path : Option String
  completed_at : Option Nat
deriving Repr, DecidableEq

/-- database.create_job: INSERT with status 'pending'; the schema defaults
give progress 0.0 and NULL error, report_path and completed_at. -/
def create_job_row : JobRow := ⟨"pending", 0, none, none, none⟩

/-- database.update_job_status: one UPDATE statement assembled from the
non-None arguments — status is always written, progress/error/report_path
only when passed non-None, and completed_at (with the current time) exactly
when the new status is "completed" or "failed".  The single SQL statement is
modeled as this single state-transition function. -/
def update_job_status (row : JobRow) (status : String) (progress : Option Rat)
    (error : Option String) (report_path : Option String) (now : Nat) : JobRow :=
  { status := status
    progress := match progress with
      | some p => p
      | none => row.progress
    error := match error with
      | some e => some e
      | none => row.error
    report_path := match report_path with
      | some rp => some rp
      | none => row.report_path
    completed_at :=
      if status = "completed" ∨ status = "failed" then some now
      else row.completed_at }

/-! ## C8 -/

/-- C8: update_job_status keeps every field whose argument is None at its
prior stored value — only the status, the fields passed non-None, and (for
terminal statuses) completed_at change — and all of them change in the one
atomic transition that models the single assembled UPDATE statement. -/
theorem update_job_status_frame (row : JobRow) (status : String)
    (progress : Option Rat) (error : Option String) (report_path : Option String)
    (now : Nat) :
    (update_job_status row status progress error report_path now).status = status ∧
    (progress = none →
      (update_job_status row status progress error report_path now).progress
        = row.progress) ∧
    (∀ p, progress = some p →
      (update_job_status row status progress error report_path now).progress = p) ∧
    (error = none →
      (update_job_status row status progress error report_path now).error
        = row.error) ∧
    (∀ e, error = some e →
      (update_job_status row status progress error report_path now).error = some e) ∧
    (report_path = none →
      (update_job_status row status progress error report_path now).report_path
        = row.report_path) ∧
    (∀ rp, report_path = some rp →
      (update_job_status row status progress error report_path now).report_path
        = some rp) ∧
    (status = "completed" ∨ status = "failed" →
      (update_job_status row status progress error report_path now).completed_at
        = some now) ∧
    (¬(status = "completed" ∨ status = "failed") →
      (update_job_status row status progress error report_path now).completed_at
        = row.completed_at) := by
  refine ⟨rfl, ?_, ?_, ?_, ?_, ?_, ?_, ?_, ?_⟩
  · intro h
    simp [update_job_status, h]
  · intro p h
    simp [update_job_status, h]
  · intro h
    simp [update_job_status, h]
  · intro e h
    simp [update_job_status, h]
  · intro h
    simp [update_job_status, h]
  · intro rp h
    simp [update_job_status, h]
  · intro h
    simp [update_job_status, if_pos h]
  · intro h
    simp [update_job_status, if_neg h]

/-- Witness for C8: a mid-run row updated to "failed" with only the error
passed keeps its stored progress and report_path, gets the error, and has
its completion timestamp set. -/
theorem update_job_status_frame_witness :
    (update_job_status ⟨"processing", 1/2, none, none, none⟩ "failed" none
        (some "boom") none 7).progress = 1/2 ∧
    (update_job_status ⟨"processing", 1/2, none, none, none⟩ "failed" none
        (some "boom") none 7).error = some "boom" ∧
    (update_job_status ⟨"processing", 1/2, none, none, none⟩ "failed" none
        (some "boom") none 7).report_path = none ∧
    (update_job_status ⟨"processing", 1/2, none, none, none⟩ "failed" none
        (some "boom") none 7).completed_at = some 7 := by
  have h := update_job_status_frame ⟨"processing", 1/2, none, none, none⟩ "failed"
    none (some "boom") none 7
  exact ⟨h.2.1 rfl, h.2.2.2.2.1 "boom" rfl, h.2.2.2.2.2.1 rfl,
    h.2.2.2.2.2.2.2.1 (Or.inr rfl)⟩

/-! ## Job lifecycle reachability (C2) -/

/-- Job rows during the non-terminal phase: the freshly created 'pending' row
followed by any number of the background task's progress callbacks, each of
which writes status "processing" with a progress value and leaves
error/report_path untouched (run_generation_job's progress_callback). -/
inductive JobActive : JobRow → Prop
  | start : JobActive create_job_row
  | progress_update (r : JobRow) (p : Rat) (now : Nat) :
      JobActive r → JobActive (update_job_status r "processing" (some p) none none now)

/-- Job rows reachable through creation, the progress callbacks, and the
orchestrator's single terminal write: run_generation_job writes either
("completed", 1.0, report_path) on success or ("failed", last progress,
error) on exception, and writes nothing afterwards. -/
inductive JobReachable : JobRow → Prop
  | active (r : JobRow) : JobActive r → JobReachable r
  | completed (r : JobRow) (path : String) (now : Nat) :
      JobActive r →
      JobReachable (update_job_status r "completed" (some 1) none (some path) now)
  | failed (r : JobRow) (p : Rat) (msg : String) (now : Nat) :
      JobActive r →
      JobReachable (update_job_status r "failed" (some p) (some msg) none now)

/-- During the non-terminal phase the status is pending or processing and
error, report_path and completed_at are all still NULL. -/
theorem jobActive_fields (r : JobRow) (h : JobActive r) :
    (r.status = "pending" ∨ r.status = "processing") ∧ r.error = none ∧
    r.report_path = none ∧ r.completed_at = none := by
  induction h with
  | start => exact ⟨Or.inl rfl, rfl, rfl, rfl⟩
  | progress_update r p now _ ih =>
      refine ⟨Or.inr rfl, ?_, ?_, ?_⟩
      · simp [update_job_status, ih.2.1]
      · simp [update_job_status, ih.2.2.1]
      · simp [update_job_status, ih.2.2.2]

/-! ## C2 -/

/-- C2: every job row reachable through creation, the orchestrator's progress
callbacks and its terminal write satisfies the lifecycle invariant:
completed_at is set iff the status is "completed" or "failed", error is
non-null iff the status is "failed", and report_path is non-null iff the
status is "completed". -/
theorem job_lifecycle_invariant (r : JobRow) (h : JobReachable r) :
    (r.completed_at ≠ none ↔ (r.status = "completed" ∨ r.status = "failed")) ∧
    (r.error ≠ none ↔ r.status = "failed") ∧
    (r.report_path ≠ none ↔ r.status = "completed") := by
  cases h with
  | active r ha =>
      obtain ⟨hs, he, hrp, hca⟩ := jobActive_fields r ha
      rcases hs with hs | hs <;> simp [he, hrp, hca, hs]
  | completed r path now ha =>
      obtain ⟨hs, he, hrp, hca⟩ := jobActive_fields r ha
      simp [update_job_status, he]
  | failed r p msg now ha =>
      obtain ⟨hs, he, hrp, hca⟩ := jobActive_fields r ha
      simp [update_job_status, hrp]

/-- Witness for C2: the invariant evaluated on the concrete row produced by
create_job, one progress callback and the successful terminal write. -/
theorem job_lifecycle_invariant_witness :
    ((update_job_status (update_job_status create_job_row "processing" (some (1/10))
          none none 3) "completed" (some 1) none (some "m.docx") 5).completed_at ≠ none
      ↔ ((update_job_status (update_job_status create_job_row "processing" (some (1/10))
          none none 3) "completed" (some 1) none (some "m.docx") 5).status = "completed"
        ∨ (update_job_status (update_job_status create_job_row "processing" (some (1/10))
          none none 3) "completed" (some 1) none (some "m.docx") 5).status = "failed")) ∧
    ((update_job_status (update_job_status create_job_row "processing" (some (1/10))
          none none 3) "completed" (some 1) none (some "m.docx") 5).error ≠ none
      ↔ (update_job_status (update_job_status create_job_row "processing" (some (1/10))
          none none 3) "completed" (some 1) none (some "m.docx") 5).status = "failed") ∧
    ((update_job_status (update_job_status create_job_row "processing" (some (1/10))
          none none 3) "completed" (some 1) none (some "m.docx") 5).report_path ≠ none
      ↔ (update_job_status (update_job_status create_job_row "processing" (some (1/10))
          none none 3) "completed" (some 1) none (some "m.docx") 5).status = "completed") :=
  job_lifecycle_invariant _
    (JobReachable.completed _ "m.docx" 5
      (JobActive.progress_update _ (1/10) 3 JobActive.start))

/-! ## Orchestrator in-memory progress and traces
(services/report_generator.py: _running_jobs, run_generation_job,
ReportGenerator.generate_simple; src/server.py: get_job_status merge) -/

/-- report_generator.get_job_progress over the _running_jobs table (job id →
the registered generator's current progress): the live value when the id is
present, absent otherwise. -/
def get_job_progress : List (String × Rat) → String → Option Rat
  | [], _ => none
  | (k, p) :: rest, job_id =>
      if k = job_id then some p else get_job_progress rest job_id

/-- server.get_job_status progress merge: the live in-memory value when
present, else the durably stored progress. -/
def status_poll_progress (t : List (String × Rat)) (job_id : String)
    (stored : JobRow) : Rat :=
  match get_job_progress t job_id with
  | some p => p
  | none => stored.progress

/-- The orchestrator state for one job: the _running_jobs table and the
job's durable row. -/
structure OrchState where
  running : List (String × Rat)
  stored : JobRow
deriving Repr, DecidableEq

/-- ReportGenerator._update_progress first half: self.progress = p on the
generator object registered in the table. -/
def setLive (j : String) (p : Rat) (s : OrchState) : OrchState :=
  { s with running := s.running.map (fun q => (q.1, if q.1 = j then p else q.2)) }

/-- The progress callback's durable write:
update_job_status(job_id, "processing", p). -/
def writeProcessing (s : OrchState) (p : Rat) (now : Nat) : OrchState :=
  { s with stored := update_job_status s.stored "processing" (some p) none none now }

/-- run_generation_job's terminal success write:
update_job_status(job_id, "completed", 1.0, report_path). -/
def writeCompleted (s : OrchState) (path : String) (now : Nat) : OrchState :=
  { s with stored :=
      update_job_status s.stored "completed" (some 1) none (some path) now }

/-- run_generation_job's terminal failure write: update_job_status(job_id,
"failed", generator.progress, error) — the generator's live progress. -/
def writeFailed (s : OrchState) (j msg : String) (now : Nat) : OrchState :=
  let p := (get_job_progress s.running j).getD 0
  { s with stored := update_job_status s.stored "failed" (some p) (some msg) none now }

/-- run_generation_job's finally clause: del _running_jobs[job_id]. -/
def removeLive (j : String) (s : OrchState) : OrchState :=
  { s with running := s.running.filter (fun q => q.1 != j) }

/-- The progress fractions generate_simple reports, in stage order. -/
def generate_simple_stages : List Rat := [1/10, 3/10, 1/2, 4/5, 1]

/-- State right after run_generation_job registers the fresh generator
(progress 0.0) for a job whose pending row was just created. -/
def orchInit (j : String) : OrchState := ⟨[(j, 0)], create_job_row⟩

/-- Execution of the progress stages: each stage sets the live value, then
flushes it durably; returns the intermediate states plus the final state. -/
def runStages (j : String) : List Rat → OrchState → List OrchState × OrchState
  | [], s => ([], s)
  | p :: rest, s =>
      let s1 := setLive j p s
      let s2 := writeProcessing s1 p 0
      let r := runStages j rest s2
      (s1 :: s2 :: r.1, r.2)

/-- Every orchestrator state of a successful run of run_generation_job, in
order: registration, the five stages (live update then durable flush), the
terminal completed write, the in-memory removal. -/
def successTrace (j path : String) : List OrchState :=
  let s0 := orchInit j
  let r := runStages j generate_simple_stages s0
  let sc := writeCompleted r.2 path 0
  s0 :: r.1 ++ [sc, removeLive j sc]

/-- Every orchestrator state of a run failing after k completed stages: the
terminal failed write carries the generator's last live progress, then the
in-memory entry is removed. -/
def failureTrace (j msg : String) (k : Nat) : List OrchState :=
  let s0 := orchInit j
  let r := runStages j (generate_simple_stages.take k) s0
  let sf := writeFailed r.2 j msg 0
  s0 :: r.1 ++ [sf, removeLive j sf]

/-- What a poller observes at a state: the live/stored merge of
server.get_job_status. -/
def observedProgress (j : String) (s : OrchState) : Rat :=
  status_poll_progress s.running j s.stored

/-- Final state of a successful run. -/
def successFinal (j path : String) : OrchState :=
  removeLive j (writeCompleted (runStages j generate_simple_stages (orchInit j)).2 path 0)

/-- Final state of a failed run. -/
def failureFinal (j msg : String) (k : Nat) : OrchState :=
  removeLive j (writeFailed (runStages j (generate_simple_stages.take k) (orchInit j)).2 j msg 0)

/-! ## C5 -/

/-- C5: the stage fractions reported by generate_simple are non-decreasing,
and for every job the progress sequence observed by a poller through the
live/stored merge along a whole run — successful, or failing after any
number of completed stages — is non-decreasing, ending at 1.0 on success. -/
theorem progress_monotone_spec :
    List.Chain' (· ≤ ·) generate_simple_stages ∧
    (∀ j path : String,
      List.Chain' (· ≤ ·) ((successTrace j path).map (observedProgress j)) ∧
      ((successTrace j path).map (observedProgress j)).getLast? = some 1) ∧
    (∀ (j msg : String) (k : Fin 6),
      List.Chain' (· ≤ ·) ((failureTrace j msg k.val).map (observedProgress j))) := by
  refine ⟨by norm_num [generate_simple_stages, List.chain'_cons], ?_, ?_⟩
  · intro j path
    have hmap : (successTrace j path).map (observedProgress j)
        = [0, 1/10, 1/10, 3/10, 3/10, 1/2, 1/2, 4/5, 4/5, 1, 1, 1, 1] := by
      simp [successTrace, runStages, generate_simple_stages, orchInit, setLive,
        writeProcessing, writeCompleted, removeLive, observedProgress,
        status_poll_progress, get_job_progress, update_job_status, create_job_row]
    rw [hmap]
    refine ⟨by norm_num [List.chain'_cons], rfl⟩
  · intro j msg k
    have h0 : (failureTrace j msg 0).map (observedProgress j) = [0, 0, 0] := by
      simp [failureTrace, runStages, generate_simple_stages, orchInit, setLive,
        writeProcessing, writeFailed, removeLive, observedProgress,
        status_poll_progress, get_job_progress, update_job_status, create_job_row]
    have h1 : (failureTrace j msg 1).map (observedProgress j)
        = [0, 1/10, 1/10, 1/10, 1/10] := by
      simp [failureTrace, runStages, generate_simple_stages, orchInit, setLive,
        writeProcessing, writeFailed, removeLive, observedProgress,
        status_poll_progress, get_job_progress, update_job_status, create_job_row]
    have h2 : (failureTrace j msg 2).map (observedProgress j)
        = [0, 1/10, 1/10, 3/10, 3/10, 3/10, 3/10] := by
      simp [failureTrace, runStages, generate_simple_stages, orchInit, setLive,
        writeProcessing, writeFailed, removeLive, observedProgress,
        status_poll_progress, get_job_progress, update_job_status, create_job_row]
    have h3 : (failureTrace j msg 3).map (observedProgress j)
        = [0, 1/10, 1/10, 3/10, 3/10, 1/2, 1/2, 1/2, 1/2] := by
      simp [failureTrace, runStages, generate_simple_stages, orchInit, setLive,
        writeProcessing, writeFailed, removeLive, observedProgress,
        status_poll_progress, get_job_progress, update_job_status, create_job_row]
    have h4 : (failureTrace j msg 4).map (observedProgress j)
        = [0, 1/10, 1/10, 3/10, 3/10, 1/2, 1/2, 4/5, 4/5, 4/5, 4/5] := by
      simp [failureTrace, runStages, generate_simple_stages, orchInit, setLive,
        writeProcessing, writeFailed, removeLive, observedProgress,
        status_poll_progress, get_job_progress, update_job_status, create_job_row]
    have h5 : (failureTrace j msg 5).map (observedProgress j)
        = [0, 1/10, 1/10, 3/10, 3/10, 1/2, 1/2, 4/5, 4/5, 1, 1, 1, 1] := by
      simp [failureTrace, runStages, generate_simple_stages, orchInit, setLive,
        writeProcessing, writeFailed, removeLive, observedProgress,
        status_poll_progress, get_job_progress, update_job_status, create_job_row]
    fin_cases k
    · rw [h0]
      norm_num [List.chain'_cons]
    · rw [h1]
      norm_num [List.chain'_cons]
    · rw [h2]
      norm_num [List.chain'_cons]
    · rw [h3]
      norm_num [List.chain'_cons]
    · rw [h4]
      norm_num [List.chain'_cons]
    · rw [h5]
      norm_num [List.chain'_cons]

/-! ## C6 -/

/-- C6: get_job_progress returns the live progress exactly when the job id
is present in the running-jobs table and an absent result otherwise; along
a full run the in-memory entry is present (holding the live value) right
after the terminal durable write and removed in the final state, whose
stored status is already terminal; and the status-poll merge returns the
live value when present, else the durably stored progress. -/
theorem get_job_progress_spec :
    (∀ (t : List (String × Rat)) (j : String),
        (get_job_progress t j).isSome = true ↔ j ∈ t.map Prod.fst) ∧
    (∀ (t : List (String × Rat)) (j : String) (stored : JobRow),
        (∀ p, get_job_progress t j = some p → status_poll_progress t j stored = p) ∧
        (get_job_progress t j = none →
          status_poll_progress t j stored = stored.progress)) ∧
    (∀ j path : String,
        (successTrace j path).getLast? = some (successFinal j path) ∧
        get_job_progress
          (writeCompleted (runStages j generate_simple_stages (orchInit j)).2
            path 0).running j = some 1 ∧
        (writeCompleted (runStages j generate_simple_stages (orchInit j)).2
            path 0).stored.status = "completed" ∧
        get_job_progress (successFinal j path).running j = none ∧
        (successFinal j path).stored.status = "completed") ∧
    (∀ (j msg : String) (k : Fin 6),
        get_job_progress (failureFinal j msg k.val).running j = none ∧
        (failureFinal j msg k.val).stored.status = "failed") := by
  refine ⟨?_, ?_, ?_, ?_⟩
  · intro t j
    induction t with
    | nil => simp [get_job_progress]
    | cons q rest ih =>
        rcases q with ⟨k, p⟩
        by_cases h : k = j
        · subst h
          simp [get_job_progress]
        · simpa [get_job_progress, h, Ne.symm h] using ih
  · intro t j stored
    constructor
    · intro p h
      unfold status_poll_progress
      rw [h]
    · intro h
      unfold status_poll_progress
      rw [h]
  · intro j path
    refine ⟨?_, ?_, ?_, ?_, ?_⟩ <;>
      simp [successTrace, successFinal, runStages, generate_simple_stages,
        orchInit, setLive, writeProcessing, writeCompleted, removeLive,
        get_job_progress, update_job_status, create_job_row]
  · intro j msg k
    fin_cases k <;>
      · refine ⟨?_, ?_⟩ <;>
          simp [failureFinal, runStages, generate_simple_stages, orchInit,
            setLive, writeProcessing, writeFailed, removeLive,
            get_job_progress, update_job_status, create_job_row]

/-- Witness for C6: with the entry ("job1", 1/2) live the poll returns the
live value 1/2; with an empty running table it falls back to the stored
progress of the fresh pending row, 0. -/
theorem get_job_progress_spec_witness :
    status_poll_progress [("job1", 1/2)] "job1" create_job_row = 1/2 ∧
    status_poll_progress [] "job1" create_job_row = 0 := by
  have h := get_job_progress_spec
  refine ⟨(h.2.1 [("job1", 1/2)] "job1" create_job_row).1 (1/2)
    (by simp [get_job_progress]), ?_⟩
  have h2 := (h.2.1 [] "job1" create_job_row).2 rfl
  rw [h2]
  rfl

/-! ## Upload intake (services/upload.py, config.py) -/

/-- config.Settings.allowed_extensions. -/
def allowed_extensions : List String :=
  [".csv", ".xlsx", ".xls", ".docx", ".pdf", ".txt"]

/-- config.Settings.max_file_size_mb. -/
def max_file_size_mb : Nat := 50

/-- config.Settings.max_upload_size_mb. -/
def max_upload_size_mb : Nat := 100

/-- pathlib.PurePath.suffix: the substring from the last dot on, empty when
there is no dot, when the name starts with its only dot (hidden file), or
when the name ends with the dot. -/
def pySuffix (name : String) : String :=
  let cs := name.data
  match (cs.enum.filter (fun q => q.2 = '.')).getLast? with
  | none => ""
  | some q => if 0 < q.1 ∧ q.1 + 1 < cs.length then String.mk (cs.drop q.1) else ""

/-- str.lower() over the suffix (ASCII case folding, matching Python's
behavior on extension strings). -/
def lowerStr (s : String) : String :=
  String.mk (s.data.map Char.toLower)

/-- One incoming multipart file: its client-supplied name and content size in
bytes (the content bytes themselves only matter through their length). -/
structure UploadFile where
  filename : String
  content_size : Nat
deriving Repr, DecidableEq

/-- One entry of the file_list that save_uploaded_files returns. -/
structure FileDesc where
  name : String
  size : Nat
  ftype : String
  path : String
deriving Repr, DecidableEq

/-- The body of save_uploaded_files' per-file loop, carrying the running
total_size, the descriptors accumulated so far and — crucially — the names
of the files already written to disk.  Per file, in source order: extension
checked against the allow-list, content read and added to the running total,
per-file ceiling checked, cumulative ceiling checked, then and only then the
file is written to disk.  An HTTPException aborts the loop, leaving the
files already written in place. -/
def saveLoop (upload_path : String) :
    List UploadFile → Nat → List FileDesc → List String →
    Except String (List FileDesc) × List String
  | [], _, acc, persisted => (Except.ok acc, persisted)
  | f :: rest, total_size, acc, persisted =>
      let ext := lowerStr (pySuffix f.filename)
      if ext ∉ allowed_extensions then
        (Except.error ("File type " ++ ext ++ " not allowed"), persisted)
      else
        let file_size := f.content_size
        let total := total_size + file_size
        if file_size > max_file_size_mb * 1024 * 1024 then
          (Except.error ("File " ++ f.filename ++ " exceeds size limit"), persisted)
        else if total > max_upload_size_mb * 1024 * 1024 then
          (Except.error "Total upload exceeds limit", persisted)
        else
          saveLoop upload_path rest total
            (acc ++ [⟨f.filename, file_size, ext, upload_path ++ "/" ++ f.filename⟩])
            (persisted ++ [f.filename])

/-- upload.save_uploaded_files: runs the loop from an empty state; the first
component is the HTTP outcome (descriptor list or the raised exception), the
second the names of the files left written on disk. -/
def save_uploaded_files (upload_path : String) (files : List UploadFile) :
    Except String (List FileDesc) × List String :=
  saveLoop upload_path files 0 [] []

/-- Specification-side characterization: the names of the maximal prefix of
the request whose files all pass the extension and size checks with the
given running total. -/
def acceptedNames : List UploadFile → Nat → List String
  | [], _ => []
  | f :: rest, total_size =>
      let ext := lowerStr (pySuffix f.filename)
      if ext ∉ allowed_extensions then []
      else
        let total := total_size + f.content_size
        if f.content_size > max_file_size_mb * 1024 * 1024 then []
        else if total > max_upload_size_mb * 1024 * 1024 then []
        else f.filename :: acceptedNames rest total

theorem saveLoop_persisted (up : String) (fs : List UploadFile) :
    ∀ (total : Nat) (acc : List FileDesc) (pers : List String),
      (saveLoop up fs total acc pers).2 = pers ++ acceptedNames fs total := by
  induction fs with
  | nil =>
      intro total acc pers
      simp [saveLoop, acceptedNames]
  | cons f rest ih =>
      intro total acc pers
      unfold saveLoop acceptedNames
      by_cases h1 : lowerStr (pySuffix f.filename) ∉ allowed_extensions
      · rw [if_pos h1, if_pos h1]
        simp
      · rw [if_neg h1, if_neg h1]
        by_cases h2 : f.content_size > max_file_size_mb * 1024 * 1024
        · rw [if_pos h2, if_pos h2]
          simp
        · rw [if_neg h2, if_neg h2]
          by_cases h3 : total + f.content_size > max_upload_size_mb * 1024 * 1024
          · rw [if_pos h3, if_pos h3]
            simp
          · rw [if_neg h3, if_neg h3]
            rw [ih]
            simp

/-! ## C4 -/

/-- Counterexample for C4 as stated: the two-file request [a.csv (10 bytes),
b.exe (5 bytes)] is aborted on the second file's disallowed extension, yet
a.csv — already written during the loop's first iteration and never cleaned
up — remains persisted, so the upload is not all-or-nothing. -/
theorem upload_not_all_or_nothing_counterexample :
    (save_uploaded_files "up" [⟨"a.csv", 10⟩, ⟨"b.exe", 5⟩]).1
      = Except.error "File type .exe not allowed" ∧
    (save_uploaded_files "up" [⟨"a.csv", 10⟩, ⟨"b.exe", 5⟩]).2 = ["a.csv"] := by
  constructor
  · rfl
  · rfl

/-- C4 (amended): a violating file aborts the whole request with an error
and is itself never written, but the files persisted are exactly the valid
prefix strictly before the first violation — not none; in particular a
violation at the first file persists nothing, a single file of exactly the
50 MB per-file limit succeeds, and one byte over fails with no file
persisted. -/
theorem save_uploaded_files_spec :
    (∀ (up : String) (fs : List UploadFile),
        (save_uploaded_files up fs).2 = acceptedNames fs 0) ∧
    ((save_uploaded_files "up" [⟨"a.csv", 52428800⟩]).1
        = Except.ok [⟨"a.csv", 52428800, ".csv", "up/a.csv"⟩] ∧
      (save_uploaded_files "up" [⟨"a.csv", 52428800⟩]).2 = ["a.csv"]) ∧
    ((save_uploaded_files "up" [⟨"a.csv", 52428801⟩]).1
        = Except.error "File a.csv exceeds size limit" ∧
      (save_uploaded_files "up" [⟨"a.csv", 52428801⟩]).2 = []) := by
  refine ⟨?_, ⟨?_, ?_⟩, ⟨?_, ?_⟩⟩
  · intro up fs
    rw [save_uploaded_files, saveLoop_persisted]
    simp
  · rfl
  · rfl
  · rfl
  · rfl

end VelvetResearch
